import Mathlib

/-!
Verification development for the jobly backend query-building core
(src/helpers/sql.js, src/models/company.js, src/models/job.js).

JavaScript objects are embedded as association lists in key insertion
order; JS runtime values as the inductive `JVal`; thrown errors as the
`Except JErr` monad.  Every function here is a direct translation of the
corresponding JS function; doc comments name the source location.
-/

/-- A JavaScript runtime value as it flows through this code: a string,
an (integer) number, a boolean, or NaN (the result of a failed numeric
coercion).  The repo only moves integral numbers through these paths. -/
inductive JVal where
  | s (v : String)
  | n (v : Int)
  | b (v : Bool)
  | nan
deriving DecidableEq, Repr

/-- Thrown errors of the repo: `BadRequestError` (status 400),
`NotFoundError` (status 404), `ExpressError(msg, status)` from
src/expressError.js, and `dbError` for an error raised by the storage
driver itself (e.g. an undefined column in generated SQL). -/
inductive JErr where
  | badRequest (msg : String)
  | notFound (msg : String)
  | express (msg : String) (status : Nat)
  | dbError (msg : String)
deriving DecidableEq, Repr

/-- The `ValidationError` category of the specification: a client-input
failure with status 400 (`BadRequestError` or `ExpressError` at 400). -/
def JErr.isValidation : JErr → Bool
  | .badRequest _ => true
  | .express _ st => st == 400
  | _ => false

/-- JS template-literal stringification of a value. -/
def jsToString : JVal → String
  | .s v => v
  | .n v => toString v
  | .b true => "true"
  | .b false => "false"
  | .nan => "NaN"

/-- Numeric value of a list of decimal digit characters. -/
def digitsToNat (l : List Char) : Nat :=
  l.foldl (fun a c => a * 10 + (c.toNat - 48)) 0

/-- JS `parseInt` on a string: skip leading whitespace, optional sign,
then the longest run of decimal digits; NaN if there are none. -/
def parseIntOfString (str : String) : JVal :=
  let cs := str.data.dropWhile (fun c => c = ' ' || c = '\t' || c = '\n')
  let signed : Bool × List Char :=
    match cs with
    | '-' :: rest => (true, rest)
    | '+' :: rest => (false, rest)
    | rest => (false, rest)
  let ds := signed.2.takeWhile (fun c => c.isDigit)
  if ds.isEmpty then .nan
  else if signed.1 then .n (-(digitsToNat ds : Int))
  else .n (digitsToNat ds : Int)

/-- JS `parseInt` as used at src/models/company.js:90 and
src/models/job.js:65: numbers pass through (they are integral here),
strings are parsed, everything else is NaN. -/
def parseIntJS : JVal → JVal
  | .n v => .n v
  | .s v => parseIntOfString v
  | _ => .nan

/-- JS `Number` coercion used by the relational operators; `none`
stands for NaN.  Strings must be entirely an optionally signed decimal
integer (the empty string coerces to 0). -/
def toNumJS : JVal → Option Int
  | .n v => some v
  | .b true => some 1
  | .b false => some 0
  | .nan => none
  | .s v =>
    let cs := v.data.dropWhile (fun c => c = ' ' || c = '\t' || c = '\n')
    if cs.isEmpty then some 0
    else
      let signed : Bool × List Char :=
        match cs with
        | '-' :: rest => (true, rest)
        | '+' :: rest => (false, rest)
        | rest => (false, rest)
      if signed.2.isEmpty || signed.2.any (fun c => !c.isDigit) then none
      else if signed.1 then some (-(digitsToNat signed.2 : Int))
      else some (digitsToNat signed.2 : Int)

/-- JS `>`: two strings compare lexicographically; otherwise both sides
are coerced to numbers and any NaN makes the comparison false. -/
def jsGt (a b : JVal) : Bool :=
  match a, b with
  | .s x, .s y => decide (y < x)
  | a, b =>
    match toNumJS a, toNumJS b with
    | some x, some y => decide (y < x)
    | _, _ => false

/-- JS `>` where either operand may be `undefined` (an absent object
property); `undefined` coerces to NaN so the comparison is false. -/
def jsGtUndef : Option JVal → Option JVal → Bool
  | some a, some b => jsGt a b
  | _, _ => false

/-- Column-name resolution inlined at src/helpers/sql.js:28 as
`jsToSql[colName] || colName`: the mapped name when the key is present
with a truthy (non-empty) value, otherwise the key itself. -/
def colFor (jsToSql : List (String × String)) (colName : String) : String :=
  match jsToSql.lookup colName with
  | some v => if v = "" then colName else v
  | none => colName

/-- The column rule as the specification words it (spec section 4.1):
`mapping[externalName]` if present, else `externalName` unchanged.
Stated separately from `colFor` to compare the two. -/
def colForSpec (jsToSql : List (String × String)) (colName : String) : String :=
  match jsToSql.lookup colName with
  | some v => v
  | none => colName

/-- src/helpers/sql.js:20-35 `sqlForPartialUpdate(dataToUpdate, jsToSql)`:
throws `BadRequestError("No data")` on an empty object, else returns the
`SET` fragment `"col1"=$1, "col2"=$2, ...` and the raw value list. -/
def sqlForPartialUpdate (dataToUpdate : List (String × JVal))
    (jsToSql : List (String × String)) : Except JErr (String × List JVal) :=
  let keys := dataToUpdate.map Prod.fst
  if keys.length = 0 then
    .error (.badRequest "No data")
  else
    let cols := (List.enumFrom 0 keys).map
      (fun p => "\"" ++ colFor jsToSql p.2 ++ "\"=$" ++ toString (p.1 + 1))
    .ok (String.intercalate ", " cols, dataToUpdate.map Prod.snd)

/-- The denotation of the generated `SET` fragment: the i-th assignment
sets column `colFor jsToSql key_i` to the i-th positional value. -/
def updateAssignments (dataToUpdate : List (String × JVal))
    (jsToSql : List (String × String)) : List (String × JVal) :=
  dataToUpdate.map (fun p => (colFor jsToSql p.1, p.2))

/-- The recognized Company filter keys (src/models/company.js:80-98). -/
def recognizedC (k : String) : Bool :=
  k == "name" || k == "minEmployees" || k == "maxEmployees"

/-- The recognized Job filter keys (src/models/job.js:57-74). -/
def recognizedJ (k : String) : Bool :=
  k == "title" || k == "minSalary" || k == "hasEquity"

/-- The filter loop of `Company.findAll` (src/models/company.js:79-100):
one parenthesized SQL predicate and one parameter value per key, in key
order; an unrecognized key throws `ExpressError(..., 400)`. -/
def companyFilterLoop : List (String × JVal) → Nat →
    Except JErr (List String × List JVal)
  | [], _ => .ok ([], [])
  | (k, v) :: rest, i =>
    if k = "name" then
      match companyFilterLoop rest (i + 1) with
      | .error e => .error e
      | .ok (ss, vs) =>
        .ok (("(name ILIKE $" ++ toString (i + 1) ++ ")") :: ss,
             .s ("%" ++ jsToString v ++ "%") :: vs)
    else if k = "minEmployees" then
      match companyFilterLoop rest (i + 1) with
      | .error e => .error e
      | .ok (ss, vs) =>
        .ok (("(num_employees > $" ++ toString (i + 1) ++ ")") :: ss,
             parseIntJS v :: vs)
    else if k = "maxEmployees" then
      match companyFilterLoop rest (i + 1) with
      | .error e => .error e
      | .ok (ss, vs) =>
        .ok (("(num_employees < $" ++ toString (i + 1) ++ ")") :: ss,
             parseIntJS v :: vs)
    else
      .error (.express ("Invalid filter parameter: " ++ k) 400)

/-- The filter loop of `Job.findAll` (src/models/job.js:56-76).  The
source guard on the equity branch is
`queryKeys[i] == "hasEquity" && queryKeys[i]`; string truthiness is
non-emptiness, hence the conjunct `k ≠ ""`. -/
def jobFilterLoop : List (String × JVal) → Nat →
    Except JErr (List String × List JVal)
  | [], _ => .ok ([], [])
  | (k, v) :: rest, i =>
    if k = "title" then
      match jobFilterLoop rest (i + 1) with
      | .error e => .error e
      | .ok (ss, vs) =>
        .ok (("(title ILIKE $" ++ toString (i + 1) ++ ")") :: ss,
             .s ("%" ++ jsToString v ++ "%") :: vs)
    else if k = "minSalary" then
      match jobFilterLoop rest (i + 1) with
      | .error e => .error e
      | .ok (ss, vs) =>
        .ok (("(salary > $" ++ toString (i + 1) ++ ")") :: ss,
             parseIntJS v :: vs)
    else if k = "hasEquity" ∧ k ≠ "" then
      match jobFilterLoop rest (i + 1) with
      | .error e => .error e
      | .ok (ss, vs) =>
        .ok (("(equity > $" ++ toString (i + 1) ++ ")") :: ss, .n 0 :: vs)
    else
      .error (.express ("Invalid filter parameter: " ++ k) 400)

/-- The fixed SELECT template of `Company.findAll`
(src/models/company.js:104-112), with the filter fragment spliced in. -/
def companySelectSql (filterStatement : String) : String :=
  "SELECT handle,\n            name,\n            description,\n" ++
  "            num_employees AS \"numEmployees\",\n" ++
  "            logo_url AS \"logoUrl\"\n    FROM companies\n    " ++
  filterStatement ++ "\n    ORDER BY name"

/-- The fixed SELECT template of `Job.findAll`
(src/models/job.js:80-89), with the filter fragment spliced in. -/
def jobSelectSql (filterStatement : String) : String :=
  "SELECT id, \n                    title, \n                    salary, \n" ++
  "                    equity, \n" ++
  "                    company_handle AS \"companyHandle\"\n" ++
  "             FROM jobs\n             " ++ filterStatement ++
  "\n             ORDER BY title\n            "

/-- `Company.findAll` (src/models/company.js:63-114) up to the point of
issuing the query: the result is the SQL text and positional parameter
list handed to `db.query`; an `.error` means no query reaches storage.
The min>max guard at line 69 runs before the key loop. -/
def companyBuildQuery (qsd : List (String × JVal)) :
    Except JErr (String × List JVal) :=
  if jsGtUndef (qsd.lookup "minEmployees") (qsd.lookup "maxEmployees") then
    .error (.express "minEmployees must be less than maxEmployees" 400)
  else
    match companyFilterLoop qsd 0 with
    | .error e => .error e
    | .ok (ss, vs) =>
      let filterStatement :=
        if qsd.length = 0 then "" else "WHERE" ++ String.intercalate " AND " ss
      .ok (companySelectSql filterStatement, vs)

/-- `Job.findAll` (src/models/job.js:44-93) up to the point of issuing
the query; an `.error` means no query reaches storage. -/
def jobBuildQuery (qsd : List (String × JVal)) :
    Except JErr (String × List JVal) :=
  match jobFilterLoop qsd 0 with
  | .error e => .error e
  | .ok (ss, vs) =>
    let filterStatement :=
      if qsd.length = 0 then "" else "WHERE" ++ String.intercalate " AND " ss
    .ok (jobSelectSql filterStatement, vs)

/-- The predicate text `Company.findAll` generates for one recognized
key at a 1-based placeholder position. -/
def companyPred (k : String) (pos : Nat) : String :=
  if k = "name" then "(name ILIKE $" ++ toString pos ++ ")"
  else if k = "minEmployees" then "(num_employees > $" ++ toString pos ++ ")"
  else "(num_employees < $" ++ toString pos ++ ")"

/-- The parameter value `Company.findAll` pushes for one recognized key. -/
def companyVal (k : String) (v : JVal) : JVal :=
  if k = "name" then .s ("%" ++ jsToString v ++ "%") else parseIntJS v

/-- The predicate text `Job.findAll` generates for one recognized key. -/
def jobPred (k : String) (pos : Nat) : String :=
  if k = "title" then "(title ILIKE $" ++ toString pos ++ ")"
  else if k = "minSalary" then "(salary > $" ++ toString pos ++ ")"
  else "(equity > $" ++ toString pos ++ ")"

/-- The parameter value `Job.findAll` pushes for one recognized key;
for `hasEquity` it is the constant 0, whatever the supplied value. -/
def jobVal (k : String) (v : JVal) : JVal :=
  if k = "title" then .s ("%" ++ jsToString v ++ "%")
  else if k = "minSalary" then parseIntJS v
  else .n 0

/-- The first key of an association list rejected by a recognizer. -/
def firstBad (recog : String → Bool) : List (String × JVal) → String
  | [] => ""
  | (k, _) :: rest => if recog k then firstBad recog rest else k

/-- A row of the companies table, fields under their external names. -/
structure CompanyRow where
  handle : String
  name : String
  description : String
  numEmployees : Option Int
  logoUrl : Option String
deriving DecidableEq, Repr

/-- A row of the jobs table, fields under their external names; equity
is stored as a numeric string (or NULL). -/
structure JobRow where
  id : Int
  title : String
  salary : Option Int
  equity : Option String
  companyHandle : String
deriving DecidableEq, Repr

/-- The relational state the models run against.  `nextJobId` models
the SERIAL sequence behind jobs.id (the schema file is external to this
core; the spec says id is auto-assigned by the storage engine). -/
structure DB where
  companies : List CompanyRow
  jobs : List JobRow
  nextJobId : Int
deriving DecidableEq, Repr

/-- The projection `SELECT id, title, salary, equity` used by the
`job_info` CTE of `Company.get` (src/models/company.js:129-132). -/
structure JobAgg where
  id : Int
  title : String
  salary : Option Int
  equity : Option String
deriving DecidableEq, Repr

/-- Projection of a jobs row to the `job_info` CTE shape. -/
def JobRow.proj (j : JobRow) : JobAgg :=
  ⟨j.id, j.title, j.salary, j.equity⟩

/-- The joined row set of the `Company.get` query
(src/models/company.js:128-144): companies restricted to the handle,
inner-joined to jobs on the foreign key, inner-joined to the `job_info`
CTE (the jobs of that handle) on TITLE equality. -/
def companyGetJoin (db : DB) (handle : String) :
    List (CompanyRow × JobRow × JobAgg) :=
  ((db.companies.filter (fun c => c.handle == handle)).flatMap fun c =>
    (db.jobs.filter (fun j => j.companyHandle == c.handle)).flatMap fun j =>
      (((db.jobs.filter (fun x => x.companyHandle == handle)).map JobRow.proj).filter
          (fun ji => ji.title == j.title)).map fun ji => (c, j, ji))

/-- The shape of a `Company.get` result row: the company columns plus
the `json_agg(job_info.*)` jobs sequence. -/
structure CompanyGetResult where
  handle : String
  name : String
  description : String
  numEmployees : Option Int
  logoUrl : Option String
  jobs : List JobAgg
deriving DecidableEq, Repr

/-- `Company.get(handle)` (src/models/company.js:127-151): the query
groups the join by `c.handle`, so with the `WHERE handle = $1` filter
there is at most one output row; zero join rows mean zero output rows
and hence `NotFoundError`. -/
def companyGet (db : DB) (handle : String) : Except JErr CompanyGetResult :=
  match companyGetJoin db handle with
  | [] => .error (.notFound ("No company: " ++ handle))
  | (c, _, _) :: _ =>
    .ok ⟨c.handle, c.name, c.description, c.numEmployees, c.logoUrl,
         (companyGetJoin db handle).map (fun t => t.2.2)⟩

/-- `Job.create` (src/models/job.js:19-38): a point lookup on title
alone decides duplication; on success the row is inserted with the
generated id and returned with external field names. -/
def jobCreate (db : DB) (title : String) (salary : Option Int)
    (equity : Option String) (companyHandle : String) :
    Except JErr (DB × JobRow) :=
  if (db.jobs.filter (fun j => j.title == title)).isEmpty then
    let row : JobRow := ⟨db.nextJobId, title, salary, equity, companyHandle⟩
    .ok ({ db with jobs := db.jobs ++ [row], nextJobId := db.nextJobId + 1 }, row)
  else
    .error (.badRequest ("Duplicate job title: " ++ title))

/-- The columns of the companies table (src schema, via the SELECT and
INSERT lists in src/models/company.js). -/
def companiesColumns : List String :=
  ["handle", "name", "description", "num_employees", "logo_url"]

/-- The columns of the jobs table (src schema, via the SELECT and
INSERT lists in src/models/job.js). -/
def jobsColumns : List String :=
  ["id", "title", "salary", "equity", "company_handle"]

/-- Storage-engine semantics of one `SET col = value` on a companies
row; `none` is a statement failure (no such column / untypable value). -/
def CompanyRow.setCol (r : CompanyRow) (c : String) (v : JVal) :
    Option CompanyRow :=
  if c = "handle" then
    match v with | .s s => some { r with handle := s } | _ => none
  else if c = "name" then
    match v with | .s s => some { r with name := s } | _ => none
  else if c = "description" then
    match v with | .s s => some { r with description := s } | _ => none
  else if c = "num_employees" then
    match v with | .n k => some { r with numEmployees := some k } | _ => none
  else if c = "logo_url" then
    match v with | .s s => some { r with logoUrl := some s } | _ => none
  else none

/-- Storage-engine semantics of one `SET col = value` on a jobs row. -/
def JobRow.setCol (r : JobRow) (c : String) (v : JVal) : Option JobRow :=
  if c = "id" then
    match v with | .n k => some { r with id := k } | _ => none
  else if c = "title" then
    match v with | .s s => some { r with title := s } | _ => none
  else if c = "salary" then
    match v with | .n k => some { r with salary := some k } | _ => none
  else if c = "equity" then
    match v with
    | .s s => some { r with equity := some s }
    | .n k => some { r with equity := some (toString k) }
    | _ => none
  else if c = "company_handle" then
    match v with | .s s => some { r with companyHandle := s } | _ => none
  else none

/-- Apply a whole `SET` list to one companies row. -/
def CompanyRow.applyAssigns (r : CompanyRow) (as0 : List (String × JVal)) :
    Option CompanyRow :=
  as0.foldl (fun acc a => acc.bind fun r2 => r2.setCol a.1 a.2) (some r)

/-- Apply a whole `SET` list to one jobs row. -/
def JobRow.applyAssigns (r : JobRow) (as0 : List (String × JVal)) :
    Option JobRow :=
  as0.foldl (fun acc a => acc.bind fun r2 => r2.setCol a.1 a.2) (some r)

/-- Walk the companies table applying the `SET` list to rows matched by
`WHERE handle = $n`; each output row carries a matched flag. -/
def updCompanyRows (as0 : List (String × JVal)) (h : String) :
    List CompanyRow → Option (List (CompanyRow × Bool))
  | [] => some []
  | r :: rest =>
    match (if r.handle = h then (r.applyAssigns as0).map (fun r2 => (r2, true))
           else some (r, false)), updCompanyRows as0 h rest with
    | some pr, some prs => some (pr :: prs)
    | _, _ => none

/-- Walk the jobs table applying the `SET` list to rows matched by
`WHERE id = $n`. -/
def updJobRows (as0 : List (String × JVal)) (jid : Int) :
    List JobRow → Option (List (JobRow × Bool))
  | [] => some []
  | r :: rest =>
    match (if r.id = jid then (r.applyAssigns as0).map (fun r2 => (r2, true))
           else some (r, false)), updJobRows as0 jid rest with
    | some pr, some prs => some (pr :: prs)
    | _, _ => none

/-- Storage-engine execution of the generated
`UPDATE companies SET ... WHERE handle = $n RETURNING ...`: the planner
rejects unknown columns and repeated columns; otherwise matched rows
are updated in place and the updated rows are returned. -/
def execUpdateCompanies (db : DB) (h : String) (as0 : List (String × JVal)) :
    Option (DB × List CompanyRow) :=
  if (as0.map Prod.fst).Nodup ∧ (∀ a ∈ as0, a.1 ∈ companiesColumns) then
    match updCompanyRows as0 h db.companies with
    | none => none
    | some prs =>
      some ({ db with companies := prs.map Prod.fst },
            (prs.filter (fun p => p.2)).map Prod.fst)
  else none

/-- Storage-engine execution of the generated
`UPDATE jobs SET ... WHERE id = $n RETURNING ...`. -/
def execUpdateJobs (db : DB) (jid : Int) (as0 : List (String × JVal)) :
    Option (DB × List JobRow) :=
  if (as0.map Prod.fst).Nodup ∧ (∀ a ∈ as0, a.1 ∈ jobsColumns) then
    match updJobRows as0 jid db.jobs with
    | none => none
    | some prs =>
      some ({ db with jobs := prs.map Prod.fst },
            (prs.filter (fun p => p.2)).map Prod.fst)
  else none

/-- The column mapping `Company.update` hands to `sqlForPartialUpdate`
(src/models/company.js:168-171). -/
def companyJsToSql : List (String × String) :=
  [("numEmployees", "num_employees"), ("logoUrl", "logo_url")]

/-- The column mapping `Job.update` hands to `sqlForPartialUpdate`
(src/models/job.js:116-120). -/
def jobJsToSql : List (String × String) :=
  [("title", "title"), ("salary", "salary"), ("equity", "equity")]

/-- `Company.update(handle, data)` (src/models/company.js:165-188):
build the SET fragment, splice it into the UPDATE template, run it, and
throw `NotFoundError` when no row came back.  The `SET` text denotes
exactly `updateAssignments data companyJsToSql` (see
`setCols_renders_assignments` below), which is what the storage step
executes.  An `.error` result leaves the database untouched: only the
`.ok` case carries a successor state. -/
def companyUpdate (db : DB) (handle : String)
    (data : List (String × JVal)) : Except JErr (DB × CompanyRow) :=
  match sqlForPartialUpdate data companyJsToSql with
  | .error e => .error e
  | .ok _ =>
    match execUpdateCompanies db handle (updateAssignments data companyJsToSql) with
    | none => .error (.dbError "update statement failed")
    | some (db2, rows) =>
      match rows with
      | [] => .error (.notFound ("No company: " ++ handle))
      | r :: _ => .ok (db2, r)

/-- `Job.update(jobId, updateData)` (src/models/job.js:113-133). -/
def jobUpdate (db : DB) (jobId : Int) (updateData : List (String × JVal)) :
    Except JErr (DB × JobRow) :=
  match sqlForPartialUpdate updateData jobJsToSql with
  | .error e => .error e
  | .ok _ =>
    match execUpdateJobs db jobId (updateAssignments updateData jobJsToSql) with
    | none => .error (.dbError "update statement failed")
    | some (db2, rows) =>
      match rows with
      | [] => .error (.notFound ("No job with id: " ++ toString jobId))
      | r :: _ => .ok (db2, r)

/-- On a non-empty input, `sqlForPartialUpdate` succeeds with the
indexed rendering of the keys and the raw value list. -/
theorem sqlForPartialUpdate_ok (d : List (String × JVal))
    (m : List (String × String)) (h : d ≠ []) :
    sqlForPartialUpdate d m =
      .ok (String.intercalate ", " ((List.enumFrom 0 (d.map Prod.fst)).map
             (fun p => "\"" ++ colFor m p.2 ++ "\"=$" ++ toString (p.1 + 1))),
           d.map Prod.snd) := by
  unfold sqlForPartialUpdate
  simp [List.length_eq_zero, h]

/-- The generated `SET` text is the rendering of `updateAssignments`:
the i-th assignment pairs the resolved column with placeholder i+1. -/
theorem setCols_renders_assignments (d : List (String × JVal))
    (m : List (String × String)) :
    ∀ n, (List.enumFrom n (d.map Prod.fst)).map
        (fun p => "\"" ++ colFor m p.2 ++ "\"=$" ++ toString (p.1 + 1)) =
      (List.enumFrom n (updateAssignments d m)).map
        (fun p => "\"" ++ p.2.1 ++ "\"=$" ++ toString (p.1 + 1)) := by
  induction d with
  | nil => intro n; rfl
  | cons hd tl ih =>
    intro n
    simp only [List.map_cons, List.enumFrom, updateAssignments] at *
    exact congrArg _ (ih (n + 1))

/-- A function of the position and the key gives equal maps over the
enumerations of two lists with the same key sequence. -/
theorem enumFrom_map_keyfun (f : Nat → String → String) :
    ∀ (q1 q2 : List (String × JVal)) (i : Nat),
      q1.map Prod.fst = q2.map Prod.fst →
      (List.enumFrom i q1).map (fun p => f p.1 p.2.1) =
        (List.enumFrom i q2).map (fun p => f p.1 p.2.1) := by
  intro q1
  induction q1 with
  | nil =>
    intro q2 i h
    cases q2 with
    | nil => rfl
    | cons b l => simp at h
  | cons a l1 ih =>
    intro q2 i h
    cases q2 with
    | nil => simp at h
    | cons b l2 =>
      simp only [List.map_cons, List.cons.injEq] at h
      simp only [List.enumFrom, List.map_cons, h.1]
      exact congrArg _ (ih l2 (i + 1) h.2)

/-- When every key is recognized, the Company filter loop succeeds and
produces one predicate and one transformed value per key, in key order,
with placeholder positions following the enumeration. -/
theorem companyFilterLoop_ok (qsd : List (String × JVal)) :
    ∀ i, (∀ p ∈ qsd, recognizedC p.1 = true) →
      companyFilterLoop qsd i =
        .ok ((List.enumFrom i qsd).map (fun p => companyPred p.2.1 (p.1 + 1)),
             qsd.map (fun p => companyVal p.1 p.2)) := by
  induction qsd with
  | nil => intro i _; rfl
  | cons hd tl ih =>
    intro i h
    have hk : recognizedC hd.1 = true := h hd (List.mem_cons_self hd tl)
    have htl : ∀ p ∈ tl, recognizedC p.1 = true :=
      fun p hp => h p (List.mem_cons_of_mem hd hp)
    obtain ⟨k, v⟩ := hd
    simp only [recognizedC, Bool.or_eq_true, beq_iff_eq] at hk
    rcases hk with (hk | hk) | hk <;> subst hk <;>
      simp [companyFilterLoop, ih (i + 1) htl, List.enumFrom, companyPred,
        companyVal]

/-- When every key is recognized, the Job filter loop succeeds and
produces one predicate and one transformed value per key, in key order. -/
theorem jobFilterLoop_ok (qsd : List (String × JVal)) :
    ∀ i, (∀ p ∈ qsd, recognizedJ p.1 = true) →
      jobFilterLoop qsd i =
        .ok ((List.enumFrom i qsd).map (fun p => jobPred p.2.1 (p.1 + 1)),
             qsd.map (fun p => jobVal p.1 p.2)) := by
  induction qsd with
  | nil => intro i _; rfl
  | cons hd tl ih =>
    intro i h
    have hk : recognizedJ hd.1 = true := h hd (List.mem_cons_self hd tl)
    have htl : ∀ p ∈ tl, recognizedJ p.1 = true :=
      fun p hp => h p (List.mem_cons_of_mem hd hp)
    obtain ⟨k, v⟩ := hd
    simp only [recognizedJ, Bool.or_eq_true, beq_iff_eq] at hk
    rcases hk with (hk | hk) | hk <;> subst hk <;>
      simp [jobFilterLoop, ih (i + 1) htl, List.enumFrom, jobPred, jobVal]

/-- When some key is unrecognized, the Company filter loop throws the
`Invalid filter parameter` error naming the first such key. -/
theorem companyFilterLoop_err (qsd : List (String × JVal)) :
    ∀ i, (∃ p ∈ qsd, recognizedC p.1 = false) →
      companyFilterLoop qsd i =
        .error (.express ("Invalid filter parameter: " ++
                  firstBad recognizedC qsd) 400) := by
  induction qsd with
  | nil => intro i h; simp at h
  | cons hd tl ih =>
    intro i h
    obtain ⟨k, v⟩ := hd
    by_cases hk : recognizedC k = true
    · have htl : ∃ p ∈ tl, recognizedC p.1 = false := by
        rcases h with ⟨p, hp, hbad⟩
        rcases List.mem_cons.mp hp with rfl | hmem
        · rw [hk] at hbad; cases hbad
        · exact ⟨p, hmem, hbad⟩
      simp only [recognizedC, Bool.or_eq_true, beq_iff_eq] at hk
      rcases hk with (hk | hk) | hk <;> subst hk <;>
        simp [companyFilterLoop, ih (i + 1) htl, firstBad, recognizedC]
    · have hk2 : recognizedC k = false := by
        cases hcase : recognizedC k
        · rfl
        · exact absurd hcase hk
      have hne : (¬(k = "name") ∧ ¬(k = "minEmployees")) ∧ ¬(k = "maxEmployees") := by
        simpa [recognizedC] using hk2
      simp [companyFilterLoop, hne.1.1, hne.1.2, hne.2, firstBad, hk2]

/-- When some key is unrecognized, the Job filter loop throws the
`Invalid filter parameter` error naming the first such key. -/
theorem jobFilterLoop_err (qsd : List (String × JVal)) :
    ∀ i, (∃ p ∈ qsd, recognizedJ p.1 = false) →
      jobFilterLoop qsd i =
        .error (.express ("Invalid filter parameter: " ++
                  firstBad recognizedJ qsd) 400) := by
  induction qsd with
  | nil => intro i h; simp at h
  | cons hd tl ih =>
    intro i h
    obtain ⟨k, v⟩ := hd
    by_cases hk : recognizedJ k = true
    · have htl : ∃ p ∈ tl, recognizedJ p.1 = false := by
        rcases h with ⟨p, hp, hbad⟩
        rcases List.mem_cons.mp hp with rfl | hmem
        · rw [hk] at hbad; cases hbad
        · exact ⟨p, hmem, hbad⟩
      simp only [recognizedJ, Bool.or_eq_true, beq_iff_eq] at hk
      rcases hk with (hk | hk) | hk <;> subst hk <;>
        simp [jobFilterLoop, ih (i + 1) htl, firstBad, recognizedJ]
    · have hk2 : recognizedJ k = false := by
        cases hcase : recognizedJ k
        · rfl
        · exact absurd hcase hk
      have hne : (¬(k = "title") ∧ ¬(k = "minSalary")) ∧ ¬(k = "hasEquity") := by
        simpa [recognizedJ] using hk2
      simp [jobFilterLoop, hne.1.1, hne.1.2, hne.2, firstBad, hk2]

/-- The key named by `firstBad` is an input key and is unrecognized. -/
theorem firstBad_spec (recog : String → Bool) :
    ∀ (qsd : List (String × JVal)), (∃ p ∈ qsd, recog p.1 = false) →
      recog (firstBad recog qsd) = false ∧
        firstBad recog qsd ∈ qsd.map Prod.fst := by
  intro qsd
  induction qsd with
  | nil => intro h; simp at h
  | cons hd tl ih =>
    intro h
    by_cases hk : recog hd.1 = true
    · have htl : ∃ p ∈ tl, recog p.1 = false := by
        rcases h with ⟨p, hp, hbad⟩
        rcases List.mem_cons.mp hp with rfl | hmem
        · rw [hk] at hbad; cases hbad
        · exact ⟨p, hmem, hbad⟩
      obtain ⟨k, v⟩ := hd
      have := ih htl
      simp only [firstBad, hk, if_true, List.map_cons]
      exact ⟨this.1, List.mem_cons_of_mem _ this.2⟩
    · have hk2 : recog hd.1 = false := by
        cases hcase : recog hd.1
        · rfl
        · exact absurd hcase hk
      obtain ⟨k, v⟩ := hd
      simp only [firstBad] at *
      simp [hk2, List.map_cons]

/-- `Company.findAll` with recognized keys and a passing min/max guard
issues the fixed SELECT with the joined filter fragment (empty input:
no WHERE at all) and the positional parameter list. -/
theorem companyBuildQuery_ok (qsd : List (String × JVal))
    (h1 : ∀ p ∈ qsd, recognizedC p.1 = true)
    (h2 : jsGtUndef (qsd.lookup "minEmployees") (qsd.lookup "maxEmployees")
            = false) :
    companyBuildQuery qsd =
      .ok (companySelectSql (if qsd.length = 0 then ""
              else "WHERE" ++ String.intercalate " AND "
                ((List.enumFrom 0 qsd).map
                  (fun p => companyPred p.2.1 (p.1 + 1)))),
           qsd.map (fun p => companyVal p.1 p.2)) := by
  unfold companyBuildQuery
  rw [companyFilterLoop_ok qsd 0 h1]
  simp [h2]

/-- `Job.findAll` with recognized keys issues the fixed SELECT with the
joined filter fragment and the positional parameter list. -/
theorem jobBuildQuery_ok (qsd : List (String × JVal))
    (h1 : ∀ p ∈ qsd, recognizedJ p.1 = true) :
    jobBuildQuery qsd =
      .ok (jobSelectSql (if qsd.length = 0 then ""
              else "WHERE" ++ String.intercalate " AND "
                ((List.enumFrom 0 qsd).map
                  (fun p => jobPred p.2.1 (p.1 + 1)))),
           qsd.map (fun p => jobVal p.1 p.2)) := by
  unfold jobBuildQuery
  rw [jobFilterLoop_ok qsd 0 h1]

/-- A fold of `Option.bind` steps from `none` stays `none`. -/
theorem foldl_bind_none {α β : Type} (g : α → β → Option α) :
    ∀ (l : List β),
      l.foldl (fun acc a => acc.bind (fun r => g r a)) none = none := by
  intro l
  induction l with
  | nil => rfl
  | cons hd tl ih => simpa using ih

/-- Unfolding one assignment of `CompanyRow.applyAssigns`. -/
theorem CompanyRow.companyApplyStep (r : CompanyRow) (a : String × JVal)
    (as0 : List (String × JVal)) :
    r.applyAssigns (a :: as0) =
      (r.setCol a.1 a.2).bind (fun r2 => r2.applyAssigns as0) := by
  unfold CompanyRow.applyAssigns
  cases h : r.setCol a.1 a.2 with
  | none =>
    simpa [h] using
      foldl_bind_none (fun (r2 : CompanyRow) (a : String × JVal) =>
        CompanyRow.setCol r2 a.1 a.2) as0
  | some r2 => simp [h]

/-- Unfolding one assignment of `JobRow.applyAssigns`. -/
theorem JobRow.jobApplyStep (r : JobRow) (a : String × JVal)
    (as0 : List (String × JVal)) :
    r.applyAssigns (a :: as0) =
      (r.setCol a.1 a.2).bind (fun r2 => r2.applyAssigns as0) := by
  unfold JobRow.applyAssigns
  cases h : r.setCol a.1 a.2 with
  | none =>
    simpa [h] using
      foldl_bind_none (fun (r2 : JobRow) (a : String × JVal) =>
        JobRow.setCol r2 a.1 a.2) as0
  | some r2 => simp [h]

/-- A single `SET` on a companies row at a column other than `handle`
leaves `handle` unchanged. -/
theorem CompanyRow.setCol_handle_frame (r : CompanyRow) (c : String)
    (v : JVal) (r2 : CompanyRow) (hc : c ≠ "handle")
    (h : r.setCol c v = some r2) : r2.handle = r.handle := by
  unfold CompanyRow.setCol at h
  rw [if_neg hc] at h
  split_ifs at h <;> cases v <;> simp_all <;> subst h <;> rfl

/-- A single `SET` on a jobs row at a column other than `id` and
`company_handle` changes neither `id` nor `companyHandle`. -/
theorem JobRow.setCol_frame (r : JobRow) (c : String) (v : JVal)
    (r2 : JobRow) (hc1 : c ≠ "id") (hc2 : c ≠ "company_handle")
    (h : r.setCol c v = some r2) :
    r2.id = r.id ∧ r2.companyHandle = r.companyHandle := by
  unfold JobRow.setCol at h
  rw [if_neg hc1] at h
  split_ifs at h <;> cases v <;> simp_all <;> subst h <;> exact ⟨rfl, rfl⟩

/-- A whole `SET` list avoiding the `handle` column preserves
`handle`. -/
theorem CompanyRow.applyAssigns_handle_frame :
    ∀ (as0 : List (String × JVal)) (r r2 : CompanyRow),
      (∀ a ∈ as0, a.1 ≠ "handle") → r.applyAssigns as0 = some r2 →
      r2.handle = r.handle := by
  intro as0
  induction as0 with
  | nil => intro r r2 _ h; cases h; rfl
  | cons a tl ih =>
    intro r r2 hc h
    rw [CompanyRow.companyApplyStep] at h
    cases hs : r.setCol a.1 a.2 with
    | none => rw [hs] at h; cases h
    | some rm =>
      rw [hs] at h
      simp only [Option.some_bind] at h
      have h1 := CompanyRow.setCol_handle_frame r a.1 a.2 rm
        (hc a (List.mem_cons_self a tl)) hs
      have h2 := ih rm r2 (fun b hb => hc b (List.mem_cons_of_mem a hb)) h
      rw [h2, h1]

/-- A whole `SET` list avoiding the `id` and `company_handle` columns
preserves `id` and `companyHandle`. -/
theorem JobRow.applyAssigns_frame :
    ∀ (as0 : List (String × JVal)) (r r2 : JobRow),
      (∀ a ∈ as0, a.1 ≠ "id" ∧ a.1 ≠ "company_handle") →
      r.applyAssigns as0 = some r2 →
      r2.id = r.id ∧ r2.companyHandle = r.companyHandle := by
  intro as0
  induction as0 with
  | nil => intro r r2 _ h; cases h; exact ⟨rfl, rfl⟩
  | cons a tl ih =>
    intro r r2 hc h
    rw [JobRow.jobApplyStep] at h
    cases hs : r.setCol a.1 a.2 with
    | none => rw [hs] at h; cases h
    | some rm =>
      rw [hs] at h
      simp only [Option.some_bind] at h
      have hca := hc a (List.mem_cons_self a tl)
      have h1 := JobRow.setCol_frame r a.1 a.2 rm hca.1 hca.2 hs
      have h2 := ih rm r2 (fun b hb => hc b (List.mem_cons_of_mem a hb)) h
      exact ⟨h2.1.trans h1.1, h2.2.trans h1.2⟩

/-- Row-walk of the companies UPDATE: same length, and row for row the
`handle` column is preserved when the `SET` list avoids it. -/
theorem updCompanyRows_handle_frame (as0 : List (String × JVal))
    (h : String) (hc : ∀ a ∈ as0, a.1 ≠ "handle") :
    ∀ (l : List CompanyRow) (prs : List (CompanyRow × Bool)),
      updCompanyRows as0 h l = some prs →
      prs.length = l.length ∧
        ∀ (j : Nat) (ca : CompanyRow) (pb : CompanyRow × Bool),
          l[j]? = some ca → prs[j]? = some pb →
          pb.1.handle = ca.handle := by
  intro l
  induction l with
  | nil =>
    intro prs hp
    cases hp
    exact ⟨rfl, by intro j ca pb h1 _; cases h1⟩
  | cons r rest ih =>
    intro prs hp
    unfold updCompanyRows at hp
    cases hhd : (if r.handle = h then
        (r.applyAssigns as0).map (fun r2 => (r2, true)) else some (r, false)) with
    | none => rw [hhd] at hp; cases hp
    | some pr =>
      cases htl : updCompanyRows as0 h rest with
      | none => rw [hhd, htl] at hp; cases hp
      | some prs2 =>
        rw [hhd, htl] at hp
        cases hp
        have hhdFrame : pr.1.handle = r.handle := by
          by_cases hm : r.handle = h
          · rw [if_pos hm] at hhd
            cases happ : r.applyAssigns as0 with
            | none => rw [happ] at hhd; cases hhd
            | some r2 =>
              rw [happ] at hhd
              simp only [Option.map_some'] at hhd
              cases hhd
              exact CompanyRow.applyAssigns_handle_frame as0 r r2 hc happ
          · rw [if_neg hm] at hhd
            cases hhd
            rfl
        have ihr := ih prs2 htl
        constructor
        · simpa using ihr.1
        · intro j ca pb h1 h2
          cases j with
          | zero =>
            simp only [List.getElem?_cons_zero, Option.some.injEq] at h1 h2
            rw [← h2, ← h1]
            exact hhdFrame
          | succ n =>
            simp only [List.getElem?_cons_succ] at h1 h2
            exact ihr.2 n ca pb h1 h2

/-- Row-walk of the jobs UPDATE: same length, and row for row `id` and
`companyHandle` are preserved when the `SET` list avoids them. -/
theorem updJobRows_frame (as0 : List (String × JVal)) (jid : Int)
    (hc : ∀ a ∈ as0, a.1 ≠ "id" ∧ a.1 ≠ "company_handle") :
    ∀ (l : List JobRow) (prs : List (JobRow × Bool)),
      updJobRows as0 jid l = some prs →
      prs.length = l.length ∧
        ∀ (j : Nat) (ja : JobRow) (pb : JobRow × Bool),
          l[j]? = some ja → prs[j]? = some pb →
          pb.1.id = ja.id ∧ pb.1.companyHandle = ja.companyHandle := by
  intro l
  induction l with
  | nil =>
    intro prs hp
    cases hp
    exact ⟨rfl, by intro j ja pb h1 _; cases h1⟩
  | cons r rest ih =>
    intro prs hp
    unfold updJobRows at hp
    cases hhd : (if r.id = jid then
        (r.applyAssigns as0).map (fun r2 => (r2, true)) else some (r, false)) with
    | none => rw [hhd] at hp; cases hp
    | some pr =>
      cases htl : updJobRows as0 jid rest with
      | none => rw [hhd, htl] at hp; cases hp
      | some prs2 =>
        rw [hhd, htl] at hp
        cases hp
        have hhdFrame : pr.1.id = r.id ∧ pr.1.companyHandle = r.companyHandle := by
          by_cases hm : r.id = jid
          · rw [if_pos hm] at hhd
            cases happ : r.applyAssigns as0 with
            | none => rw [happ] at hhd; cases hhd
            | some r2 =>
              rw [happ] at hhd
              simp only [Option.map_some'] at hhd
              cases hhd
              exact JobRow.applyAssigns_frame as0 r r2 hc happ
          · rw [if_neg hm] at hhd
            cases hhd
            exact ⟨rfl, rfl⟩
        have ihr := ih prs2 htl
        constructor
        · simpa using ihr.1
        · intro j ja pb h1 h2
          cases j with
          | zero =>
            simp only [List.getElem?_cons_zero, Option.some.injEq] at h1 h2
            rw [← h2, ← h1]
            exact hhdFrame
          | succ n =>
            simp only [List.getElem?_cons_succ] at h1 h2
            exact ihr.2 n ja pb h1 h2

/-- The column mapping of `Job.update` is the identity on every key: the
three listed keys map to themselves and every other key falls through
`jsToSql[colName] || colName` unchanged. -/
theorem colFor_jobJsToSql (k : String) : colFor jobJsToSql k = k := by
  by_cases h1 : k = "title"
  · subst h1; rfl
  · by_cases h2 : k = "salary"
    · subst h2; rfl
    · by_cases h3 : k = "equity"
      · subst h3; rfl
      · have e1 : (k == "title") = false := by simp [h1]
        have e2 : (k == "salary") = false := by simp [h2]
        have e3 : (k == "equity") = false := by simp [h3]
        simp [colFor, jobJsToSql, List.lookup, e1, e2, e3]

/-- The column mapping of `Company.update` sends a key other than `handle`
to a column other than `handle`. -/
theorem colFor_companyJsToSql_ne_handle (k : String) (h : k ≠ "handle") :
    colFor companyJsToSql k ≠ "handle" := by
  by_cases h1 : k = "numEmployees"
  · subst h1; simp [colFor, companyJsToSql, List.lookup]
  · by_cases h2 : k = "logoUrl"
    · subst h2; simp [colFor, companyJsToSql, List.lookup]
    · have e1 : (k == "numEmployees") = false := by simp [h1]
      have e2 : (k == "logoUrl") = false := by simp [h2]
      simpa [colFor, companyJsToSql, List.lookup, e1, e2] using h

/-- C1 counterexample: the mapping sends key "a" to the empty string,
so "a" is present in the mapping, yet the generated assignment falls
back to the key itself (`jsToSql[colName] || colName` tests truthiness,
not presence), contradicting the claimed column rule. -/
theorem c1_counterexample :
    sqlForPartialUpdate [("a", JVal.s "x")] [("a", "")] =
      .ok ("\"a\"=$1", [JVal.s "x"]) ∧
    List.lookup "a" [("a", "")] = some "" ∧
    "\"a\"=$1" ≠ "\"" ++ colForSpec [("a", "")] "a" ++ "\"=$1" :=
  ⟨rfl, rfl, by decide⟩

/-- C1 (amended): for every non-empty input, `sqlForPartialUpdate`
returns a setCols string that joins with ", " exactly one assignment
per input key, the j-th being `"<column>"=$<j+1>` with contiguous
1-based placeholders in key insertion order, where the column is
`jsToSql[key]` if present AND truthy (non-empty), else the key itself;
and a values list of the raw input values in the same order. -/
theorem c1_partial_update_shape (d : List (String × JVal))
    (m : List (String × String)) (h : d ≠ []) :
    ∃ cols : List String,
      sqlForPartialUpdate d m =
        .ok (String.intercalate ", " cols, d.map Prod.snd) ∧
      cols.length = d.length ∧
      ∀ (j : Nat) (p : String × JVal), d[j]? = some p →
        cols[j]? = some ("\"" ++ colFor m p.1 ++ "\"=$" ++ toString (j + 1)) := by
  refine ⟨(List.enumFrom 0 (d.map Prod.fst)).map
      (fun p => "\"" ++ colFor m p.2 ++ "\"=$" ++ toString (p.1 + 1)),
    sqlForPartialUpdate_ok d m h, ?_, ?_⟩
  · simp
  · intro j p hj
    simp [List.getElem?_map, List.getElem?_enumFrom, hj]

/-- C1 witness: the input used by the repo tests. -/
theorem c1_witness :
    ∃ cols : List String,
      sqlForPartialUpdate [("firstName", JVal.s "Test"), ("age", JVal.n 21)]
          [("firstName", "first_name"), ("age", "age")] =
        .ok (String.intercalate ", " cols,
             [("firstName", JVal.s "Test"), ("age", JVal.n 21)].map Prod.snd) ∧
      cols.length =
        ([("firstName", JVal.s "Test"), ("age", JVal.n 21)] :
          List (String × JVal)).length ∧
      ∀ (j : Nat) (p : String × JVal),
        ([("firstName", JVal.s "Test"), ("age", JVal.n 21)] :
          List (String × JVal))[j]? = some p →
        cols[j]? = some ("\"" ++ colFor [("firstName", "first_name"),
          ("age", "age")] p.1 ++ "\"=$" ++ toString (j + 1)) :=
  c1_partial_update_shape [("firstName", JVal.s "Test"), ("age", JVal.n 21)]
    [("firstName", "first_name"), ("age", "age")] (by decide)

/-- C3 code bug: company c1 exists (with no jobs), yet `Company.get`
returns `NotFoundError`, because its inner join against jobs (and the
title-keyed join to the job_info CTE) drops companies without jobs;
the claim and the function doc say NotFoundError exactly when no
company with that handle exists. -/
theorem c3_get_notfound_on_jobless_company :
    (∃ c ∈ (⟨[⟨"c1", "Comp1", "Desc", some 10, none⟩], [], 1⟩ : DB).companies,
      c.handle = "c1") ∧
    companyGet ⟨[⟨"c1", "Comp1", "Desc", some 10, none⟩], [], 1⟩ "c1" =
      .error (.notFound ("No company: " ++ "c1")) :=
  ⟨by decide, rfl⟩

/-- C4: `Job.create` fails with the duplicate error exactly when some
stored job has the same title — whatever the other fields of that job are —
and otherwise inserts and returns the stored row with the generated id
and external field names. -/
theorem c4_job_create_duplicate_title (db : DB) (t : String)
    (s : Option Int) (e : Option String) (ch : String) :
    ((∃ j ∈ db.jobs, j.title = t) →
      jobCreate db t s e ch =
        .error (.badRequest ("Duplicate job title: " ++ t))) ∧
    ((¬ ∃ j ∈ db.jobs, j.title = t) →
      jobCreate db t s e ch =
        .ok ({ db with
               jobs := db.jobs ++ [⟨db.nextJobId, t, s, e, ch⟩],
               nextJobId := db.nextJobId + 1 },
             ⟨db.nextJobId, t, s, e, ch⟩)) := by
  constructor
  · intro hdup
    have hne : (db.jobs.filter (fun j => j.title == t)).isEmpty = false := by
      rcases hdup with ⟨j, hj, ht⟩
      have : j ∈ db.jobs.filter (fun j => j.title == t) := by
        simp [List.mem_filter, hj, ht]
      cases hfe : db.jobs.filter (fun j => j.title == t) with
      | nil => rw [hfe] at this; cases this
      | cons a l => rfl
    unfold jobCreate
    rw [hne]
    rfl
  · intro hnone
    have hem : (db.jobs.filter (fun j => j.title == t)).isEmpty = true := by
      rw [List.isEmpty_iff]
      rw [List.filter_eq_nil_iff]
      intro j hj
      simp only [beq_eq_false_iff_ne, ne_eq, Bool.not_eq_true]
      intro ht
      exact hnone ⟨j, hj, by simpa using ht⟩
    unfold jobCreate
    rw [hem]
    rfl

/-- C4 witness: with one stored job "T" at company c1, creating "T"
for a DIFFERENT company still fails as duplicate; creating "U"
succeeds and returns the row with the generated id. -/
theorem c4_witness :
    jobCreate ⟨[], [⟨1, "T", none, none, "c1"⟩], 2⟩ "T" (some 5) none "c2" =
      .error (.badRequest ("Duplicate job title: " ++ "T")) ∧
    jobCreate ⟨[], [⟨1, "T", none, none, "c1"⟩], 2⟩ "U" (some 5) none "c2" =
      .ok (⟨[], [⟨1, "T", none, none, "c1"⟩, ⟨2, "U", some 5, none, "c2"⟩], 3⟩,
           ⟨2, "U", some 5, none, "c2"⟩) :=
  ⟨(c4_job_create_duplicate_title ⟨[], [⟨1, "T", none, none, "c1"⟩], 2⟩
      "T" (some 5) none "c2").1 (by decide),
   (c4_job_create_duplicate_title ⟨[], [⟨1, "T", none, none, "c1"⟩], 2⟩
      "U" (some 5) none "c2").2 (by decide)⟩

/-- C5: when both minEmployees and maxEmployees are present as numbers
and the minimum exceeds the maximum, `Company.findAll` fails with the
min/max `ValidationError` (an `.error` here is exactly "no query is
issued"): the guard at src/models/company.js:69 runs before any clause
is built. -/
theorem c5_min_max_validation (qsd : List (String × JVal)) (mn mx : Int)
    (h1 : qsd.lookup "minEmployees" = some (.n mn))
    (h2 : qsd.lookup "maxEmployees" = some (.n mx))
    (h3 : mx < mn) :
    companyBuildQuery qsd =
      .error (.express "minEmployees must be less than maxEmployees" 400) ∧
    (JErr.express "minEmployees must be less than maxEmployees" 400).isValidation
      = true := by
  refine ⟨?_, rfl⟩
  unfold companyBuildQuery
  rw [h1, h2]
  simp [jsGtUndef, jsGt, toNumJS, h3]

/-- C5 witness: the end-to-end example of the spec, min 50, max 10. -/
theorem c5_witness :
    companyBuildQuery [("minEmployees", JVal.n 50), ("maxEmployees", JVal.n 10)] =
      .error (.express "minEmployees must be less than maxEmployees" 400) ∧
    (JErr.express "minEmployees must be less than maxEmployees" 400).isValidation
      = true :=
  c5_min_max_validation
    [("minEmployees", JVal.n 50), ("maxEmployees", JVal.n 10)] 50 10
    (by decide) (by decide) (by decide)

/-- C2 counterexample: the input has the unrecognized key "bogus", but
because minEmployees > maxEmployees the guard at
src/models/company.js:69 fires first, so the ValidationError raised
does NOT name the offending key as the claim requires. -/
theorem c2_counterexample :
    companyBuildQuery
        [("minEmployees", JVal.n 50), ("maxEmployees", JVal.n 10),
         ("bogus", JVal.n 1)] =
      .error (.express "minEmployees must be less than maxEmployees" 400) ∧
    recognizedC "bogus" = false ∧
    "minEmployees must be less than maxEmployees" ≠
      "Invalid filter parameter: " ++ "bogus" :=
  ⟨rfl, rfl, by decide⟩

/-- C2 (amended): a filter mapping with an unrecognized key makes
findAll fail with a ValidationError before any query is issued (an
`.error` result is returned instead of a query); the error names the
first offending key, except that `Company.findAll` may instead raise
its min>max ValidationError, whose guard runs first. -/
theorem c2_unknown_filter_rejected :
    (∀ qsd : List (String × JVal), (∃ p ∈ qsd, recognizedC p.1 = false) →
      ∃ e, companyBuildQuery qsd = .error e ∧ e.isValidation = true ∧
        (e = .express ("Invalid filter parameter: " ++
              firstBad recognizedC qsd) 400 ∨
         e = .express "minEmployees must be less than maxEmployees" 400) ∧
        recognizedC (firstBad recognizedC qsd) = false ∧
        firstBad recognizedC qsd ∈ qsd.map Prod.fst) ∧
    (∀ qsd : List (String × JVal), (∃ p ∈ qsd, recognizedJ p.1 = false) →
      jobBuildQuery qsd =
        .error (.express ("Invalid filter parameter: " ++
                  firstBad recognizedJ qsd) 400) ∧
      (JErr.express ("Invalid filter parameter: " ++
         firstBad recognizedJ qsd) 400).isValidation = true ∧
      recognizedJ (firstBad recognizedJ qsd) = false ∧
      firstBad recognizedJ qsd ∈ qsd.map Prod.fst) := by
  constructor
  · intro qsd hbad
    have hfb := firstBad_spec recognizedC qsd hbad
    by_cases hm : jsGtUndef (qsd.lookup "minEmployees")
        (qsd.lookup "maxEmployees") = true
    · refine ⟨.express "minEmployees must be less than maxEmployees" 400,
        ?_, rfl, Or.inr rfl, hfb.1, hfb.2⟩
      unfold companyBuildQuery
      rw [hm]
      rfl
    · have hm2 : jsGtUndef (qsd.lookup "minEmployees")
          (qsd.lookup "maxEmployees") = false := by
        cases hcase : jsGtUndef (qsd.lookup "minEmployees")
            (qsd.lookup "maxEmployees")
        · rfl
        · exact absurd hcase hm
      refine ⟨.express ("Invalid filter parameter: " ++
          firstBad recognizedC qsd) 400, ?_, rfl, Or.inl rfl, hfb.1, hfb.2⟩
      unfold companyBuildQuery
      rw [hm2, companyFilterLoop_err qsd 0 hbad]
      rfl
  · intro qsd hbad
    have hfb := firstBad_spec recognizedJ qsd hbad
    refine ⟨?_, rfl, hfb.1, hfb.2⟩
    unfold jobBuildQuery
    rw [jobFilterLoop_err qsd 0 hbad]

/-- C2 witness: the input used by the repo tests, an unknown key "bananas". -/
theorem c2_witness :
    (∃ e, companyBuildQuery [("bananas", JVal.s "yes")] = .error e ∧
      e.isValidation = true ∧
      (e = .express ("Invalid filter parameter: " ++
            firstBad recognizedC [("bananas", JVal.s "yes")]) 400 ∨
       e = .express "minEmployees must be less than maxEmployees" 400) ∧
      recognizedC (firstBad recognizedC [("bananas", JVal.s "yes")]) = false ∧
      firstBad recognizedC [("bananas", JVal.s "yes")] ∈
        ([("bananas", JVal.s "yes")] : List (String × JVal)).map Prod.fst) ∧
    (jobBuildQuery [("bananas", JVal.s "yes")] =
      .error (.express ("Invalid filter parameter: " ++
                firstBad recognizedJ [("bananas", JVal.s "yes")]) 400) ∧
     (JErr.express ("Invalid filter parameter: " ++
        firstBad recognizedJ [("bananas", JVal.s "yes")]) 400).isValidation
        = true ∧
     recognizedJ (firstBad recognizedJ [("bananas", JVal.s "yes")]) = false ∧
     firstBad recognizedJ [("bananas", JVal.s "yes")] ∈
       ([("bananas", JVal.s "yes")] : List (String × JVal)).map Prod.fst) :=
  ⟨c2_unknown_filter_rejected.1 [("bananas", JVal.s "yes")]
     ⟨("bananas", JVal.s "yes"), by decide, by decide⟩,
   c2_unknown_filter_rejected.2 [("bananas", JVal.s "yes")]
     ⟨("bananas", JVal.s "yes"), by decide, by decide⟩⟩

set_option maxHeartbeats 1000000 in
/-- C8: with every key recognized (and, for Company, a passing min/max
guard), findAll issues the fixed SELECT whose filter fragment is
`WHERE` followed by one parenthesized `(<column> <op> $<position>)`
predicate per input key, positions 1-based and contiguous in key
iteration order, joined by " AND ", with the transformed values in the
same order; an empty mapping issues the SELECT with an empty fragment
(no WHERE) and an empty parameter list. -/
theorem c8_filter_clause_shape :
    (∀ qsd : List (String × JVal),
      (∀ p ∈ qsd, recognizedC p.1 = true) →
      jsGtUndef (qsd.lookup "minEmployees") (qsd.lookup "maxEmployees")
          = false →
      ∃ preds : List String,
        companyBuildQuery qsd =
          .ok (companySelectSql (if qsd.length = 0 then ""
                  else "WHERE" ++ String.intercalate " AND " preds),
               qsd.map (fun p => companyVal p.1 p.2)) ∧
        preds.length = qsd.length ∧
        (qsd.map (fun p => companyVal p.1 p.2)).length = qsd.length ∧
        ∀ (j : Nat) (p : String × JVal), qsd[j]? = some p →
          preds[j]? = some (companyPred p.1 (j + 1))) ∧
    (∀ qsd : List (String × JVal),
      (∀ p ∈ qsd, recognizedJ p.1 = true) →
      ∃ preds : List String,
        jobBuildQuery qsd =
          .ok (jobSelectSql (if qsd.length = 0 then ""
                  else "WHERE" ++ String.intercalate " AND " preds),
               qsd.map (fun p => jobVal p.1 p.2)) ∧
        preds.length = qsd.length ∧
        (qsd.map (fun p => jobVal p.1 p.2)).length = qsd.length ∧
        ∀ (j : Nat) (p : String × JVal), qsd[j]? = some p →
          preds[j]? = some (jobPred p.1 (j + 1))) := by
  constructor
  · intro qsd h1 h2
    have hmain := companyBuildQuery_ok qsd h1 h2
    refine ⟨_, hmain, by simp, by simp, ?_⟩
    intro j p hj
    simp [List.getElem?_map, List.getElem?_enumFrom, hj]
  · intro qsd h1
    have hmain := jobBuildQuery_ok qsd h1
    refine ⟨_, hmain, by simp, by simp, ?_⟩
    intro j p hj
    simp [List.getElem?_map, List.getElem?_enumFrom, hj]

set_option maxHeartbeats 2000000 in
/-- C8 witness: a two-filter Company query and a two-filter Job
query, hypotheses discharged at the concrete inputs. -/
theorem c8_witness :
    (∃ preds : List String,
      companyBuildQuery [("name", JVal.s "net"), ("maxEmployees", JVal.n 100)] =
        .ok (companySelectSql
               (if ([("name", JVal.s "net"), ("maxEmployees", JVal.n 100)] :
                   List (String × JVal)).length = 0 then ""
                else "WHERE" ++ String.intercalate " AND " preds),
             ([("name", JVal.s "net"), ("maxEmployees", JVal.n 100)] :
               List (String × JVal)).map (fun p => companyVal p.1 p.2)) ∧
      preds.length = ([("name", JVal.s "net"), ("maxEmployees", JVal.n 100)] :
        List (String × JVal)).length ∧
      (([("name", JVal.s "net"), ("maxEmployees", JVal.n 100)] :
        List (String × JVal)).map (fun p => companyVal p.1 p.2)).length =
        ([("name", JVal.s "net"), ("maxEmployees", JVal.n 100)] :
          List (String × JVal)).length ∧
      ∀ (j : Nat) (p : String × JVal),
        ([("name", JVal.s "net"), ("maxEmployees", JVal.n 100)] :
          List (String × JVal))[j]? = some p →
        preds[j]? = some (companyPred p.1 (j + 1))) ∧
    (∃ preds : List String,
      jobBuildQuery [("title", JVal.s "om"), ("hasEquity", JVal.b true)] =
        .ok (jobSelectSql
               (if ([("title", JVal.s "om"), ("hasEquity", JVal.b true)] :
                   List (String × JVal)).length = 0 then ""
                else "WHERE" ++ String.intercalate " AND " preds),
             ([("title", JVal.s "om"), ("hasEquity", JVal.b true)] :
               List (String × JVal)).map (fun p => jobVal p.1 p.2)) ∧
      preds.length = ([("title", JVal.s "om"), ("hasEquity", JVal.b true)] :
        List (String × JVal)).length ∧
      (([("title", JVal.s "om"), ("hasEquity", JVal.b true)] :
        List (String × JVal)).map (fun p => jobVal p.1 p.2)).length =
        ([("title", JVal.s "om"), ("hasEquity", JVal.b true)] :
          List (String × JVal)).length ∧
      ∀ (j : Nat) (p : String × JVal),
        ([("title", JVal.s "om"), ("hasEquity", JVal.b true)] :
          List (String × JVal))[j]? = some p →
        preds[j]? = some (jobPred p.1 (j + 1))) :=
  ⟨c8_filter_clause_shape.1 [("name", JVal.s "net"), ("maxEmployees", JVal.n 100)]
     (by decide) (by decide),
   c8_filter_clause_shape.2 [("title", JVal.s "om"), ("hasEquity", JVal.b true)]
     (by decide)⟩

/-- `companyBuildQuery` only succeeds when every key is recognized. -/
theorem companyBuildQuery_ok_recog (qsd : List (String × JVal))
    (s : String) (v : List JVal) (h : companyBuildQuery qsd = .ok (s, v)) :
    ∀ p ∈ qsd, recognizedC p.1 = true := by
  by_contra hex
  push_neg at hex
  obtain ⟨p, hp, hbad⟩ := hex
  have hb : recognizedC p.1 = false := by
    cases hcase : recognizedC p.1
    · rfl
    · exact absurd hcase hbad
  have herr := companyFilterLoop_err qsd 0 ⟨p, hp, hb⟩
  unfold companyBuildQuery at h
  by_cases hm : jsGtUndef (qsd.lookup "minEmployees")
      (qsd.lookup "maxEmployees") = true
  · rw [hm] at h
    cases h
  · have hm2 : jsGtUndef (qsd.lookup "minEmployees")
        (qsd.lookup "maxEmployees") = false := by
      cases hcase : jsGtUndef (qsd.lookup "minEmployees")
          (qsd.lookup "maxEmployees")
      · rfl
      · exact absurd hcase hm
    rw [hm2, herr] at h
    cases h

/-- `companyBuildQuery` only succeeds when the min/max guard passes. -/
theorem companyBuildQuery_ok_guard (qsd : List (String × JVal))
    (s : String) (v : List JVal) (h : companyBuildQuery qsd = .ok (s, v)) :
    jsGtUndef (qsd.lookup "minEmployees") (qsd.lookup "maxEmployees")
      = false := by
  cases hcase : jsGtUndef (qsd.lookup "minEmployees")
      (qsd.lookup "maxEmployees")
  · rfl
  · unfold companyBuildQuery at h
    rw [hcase] at h
    cases h

/-- `jobBuildQuery` only succeeds when every key is recognized. -/
theorem jobBuildQuery_ok_recog (qsd : List (String × JVal))
    (s : String) (v : List JVal) (h : jobBuildQuery qsd = .ok (s, v)) :
    ∀ p ∈ qsd, recognizedJ p.1 = true := by
  by_contra hex
  push_neg at hex
  obtain ⟨p, hp, hbad⟩ := hex
  have hb : recognizedJ p.1 = false := by
    cases hcase : recognizedJ p.1
    · rfl
    · exact absurd hcase hbad
  have herr := jobFilterLoop_err qsd 0 ⟨p, hp, hb⟩
  unfold jobBuildQuery at h
  rw [herr] at h
  cases h

/-- C6: the generated SQL text depends only on the input KEYS (and the
fixed column mapping), never on the values: two calls whose inputs have
the same key sequence produce identical `setCols` text respectively
identical SELECT text, so values reach the query only through the
positional parameter list. -/
theorem c6_sql_text_value_independent :
    (∀ (d1 d2 : List (String × JVal)) (m : List (String × String))
       (s1 s2 : String) (v1 v2 : List JVal),
      d1.map Prod.fst = d2.map Prod.fst →
      sqlForPartialUpdate d1 m = .ok (s1, v1) →
      sqlForPartialUpdate d2 m = .ok (s2, v2) → s1 = s2) ∧
    (∀ (q1 q2 : List (String × JVal)) (s1 s2 : String) (v1 v2 : List JVal),
      q1.map Prod.fst = q2.map Prod.fst →
      companyBuildQuery q1 = .ok (s1, v1) →
      companyBuildQuery q2 = .ok (s2, v2) → s1 = s2) ∧
    (∀ (q1 q2 : List (String × JVal)) (s1 s2 : String) (v1 v2 : List JVal),
      q1.map Prod.fst = q2.map Prod.fst →
      jobBuildQuery q1 = .ok (s1, v1) →
      jobBuildQuery q2 = .ok (s2, v2) → s1 = s2) := by
  refine ⟨?_, ?_, ?_⟩
  · intro d1 d2 m s1 s2 v1 v2 hk h1 h2
    have hne1 : d1 ≠ [] := by
      intro hnil
      rw [hnil] at h1
      simp [sqlForPartialUpdate] at h1
    have hne2 : d2 ≠ [] := by
      intro hnil
      rw [hnil] at hk
      simp only [List.map_nil, List.map_eq_nil_iff] at hk
      exact hne1 hk
    rw [sqlForPartialUpdate_ok d1 m hne1] at h1
    rw [sqlForPartialUpdate_ok d2 m hne2] at h2
    simp only [Except.ok.injEq, Prod.mk.injEq] at h1 h2
    rw [← h1.1, ← h2.1, hk]
  · intro q1 q2 s1 s2 v1 v2 hk h1 h2
    have hr1 := companyBuildQuery_ok_recog q1 s1 v1 h1
    have hg1 := companyBuildQuery_ok_guard q1 s1 v1 h1
    have hr2 := companyBuildQuery_ok_recog q2 s2 v2 h2
    have hg2 := companyBuildQuery_ok_guard q2 s2 v2 h2
    rw [companyBuildQuery_ok q1 hr1 hg1] at h1
    rw [companyBuildQuery_ok q2 hr2 hg2] at h2
    simp only [Except.ok.injEq, Prod.mk.injEq] at h1 h2
    have hlen : q1.length = q2.length := by
      have := congrArg List.length hk
      simpa using this
    have hmap := enumFrom_map_keyfun (fun i k => companyPred k (i + 1)) q1 q2 0 hk
    rw [← h1.1, ← h2.1, hlen, hmap]
  · intro q1 q2 s1 s2 v1 v2 hk h1 h2
    have hr1 := jobBuildQuery_ok_recog q1 s1 v1 h1
    have hr2 := jobBuildQuery_ok_recog q2 s2 v2 h2
    rw [jobBuildQuery_ok q1 hr1] at h1
    rw [jobBuildQuery_ok q2 hr2] at h2
    simp only [Except.ok.injEq, Prod.mk.injEq] at h1 h2
    have hlen : q1.length = q2.length := by
      have := congrArg List.length hk
      simpa using this
    have hmap := enumFrom_map_keyfun (fun i k => jobPred k (i + 1)) q1 q2 0 hk
    rw [← h1.1, ← h2.1, hlen, hmap]

/-- C6 witness: same keys, different values, equal SQL text, for all
three builders. -/
theorem c6_witness :
    ("\"name\"=$1" : String) = "\"name\"=$1" ∧
    companySelectSql "WHERE(num_employees > $1)" =
      companySelectSql "WHERE(num_employees > $1)" ∧
    jobSelectSql "WHERE(salary > $1)" = jobSelectSql "WHERE(salary > $1)" :=
  ⟨c6_sql_text_value_independent.1 [("name", JVal.s "a")] [("name", JVal.n 7)]
     [] "\"name\"=$1" "\"name\"=$1" [JVal.s "a"] [JVal.n 7] rfl rfl rfl,
   c6_sql_text_value_independent.2.1 [("minEmployees", JVal.n 5)]
     [("minEmployees", JVal.n 900)]
     (companySelectSql "WHERE(num_employees > $1)")
     (companySelectSql "WHERE(num_employees > $1)")
     [JVal.n 5] [JVal.n 900] rfl rfl rfl,
   c6_sql_text_value_independent.2.2 [("minSalary", JVal.n 1)]
     [("minSalary", JVal.s "2")]
     (jobSelectSql "WHERE(salary > $1)") (jobSelectSql "WHERE(salary > $1)")
     [JVal.n 1] [JVal.n 2] rfl rfl rfl⟩

/-- C7 counterexample: the update paths protect no column.  A data key
"handle" reaches the companies `SET` clause through the identity
fallback and changes the primary key; a data key "id" changes the id of
a job; a data key "company_handle" changes its foreign key. -/
theorem c7_counterexample :
    companyUpdate ⟨[⟨"c1", "Comp1", "Desc", some 10, none⟩],
        [⟨1, "T", some 5, none, "c1"⟩], 2⟩ "c1" [("handle", JVal.s "evil")] =
      .ok (⟨[⟨"evil", "Comp1", "Desc", some 10, none⟩],
            [⟨1, "T", some 5, none, "c1"⟩], 2⟩,
           ⟨"evil", "Comp1", "Desc", some 10, none⟩) ∧
    jobUpdate ⟨[⟨"c1", "Comp1", "Desc", some 10, none⟩],
        [⟨1, "T", some 5, none, "c1"⟩], 2⟩ 1 [("id", JVal.n 999)] =
      .ok (⟨[⟨"c1", "Comp1", "Desc", some 10, none⟩],
            [⟨999, "T", some 5, none, "c1"⟩], 2⟩,
           ⟨999, "T", some 5, none, "c1"⟩) ∧
    jobUpdate ⟨[⟨"c1", "Comp1", "Desc", some 10, none⟩],
        [⟨1, "T", some 5, none, "c1"⟩], 2⟩ 1
        [("company_handle", JVal.s "evil")] =
      .ok (⟨[⟨"c1", "Comp1", "Desc", some 10, none⟩],
            [⟨1, "T", some 5, none, "evil"⟩], 2⟩,
           ⟨1, "T", some 5, none, "evil"⟩) ∧
    ("evil" : String) ≠ "c1" ∧ (999 : Int) ≠ 1 :=
  ⟨rfl, rfl, rfl, by decide, by decide⟩

/-- C7 (amended): `Company.update` leaves the `handle` of every row
unchanged for every data mapping NOT containing the key "handle", and
`Job.update` leaves the `id` and `companyHandle` of every row unchanged for
every data mapping containing neither "id" nor "company_handle" (data
containing those keys can change them — see the counterexample); any
other unknown key makes the statement fail with no rows changed, since
only the `.ok` case carries a successor state. -/
theorem c7_update_frame :
    (∀ (db : DB) (h : String) (data : List (String × JVal)) (db2 : DB)
       (r : CompanyRow),
      "handle" ∉ data.map Prod.fst →
      companyUpdate db h data = .ok (db2, r) →
      db2.companies.length = db.companies.length ∧
        ∀ (j : Nat) (ca cb : CompanyRow), db.companies[j]? = some ca →
          db2.companies[j]? = some cb → cb.handle = ca.handle) ∧
    (∀ (db : DB) (jid : Int) (data : List (String × JVal)) (db2 : DB)
       (r : JobRow),
      "id" ∉ data.map Prod.fst → "company_handle" ∉ data.map Prod.fst →
      jobUpdate db jid data = .ok (db2, r) →
      db2.jobs.length = db.jobs.length ∧
        ∀ (j : Nat) (ja jb : JobRow), db.jobs[j]? = some ja →
          db2.jobs[j]? = some jb →
          jb.id = ja.id ∧ jb.companyHandle = ja.companyHandle) := by
  constructor
  · intro db h data db2 r hnk hok
    have hcols : ∀ a ∈ updateAssignments data companyJsToSql, a.1 ≠ "handle" := by
      intro a ha
      unfold updateAssignments at ha
      rw [List.mem_map] at ha
      obtain ⟨p, hp, rfl⟩ := ha
      have hkne : p.1 ≠ "handle" := fun he =>
        hnk (List.mem_map.mpr ⟨p, hp, he⟩)
      exact colFor_companyJsToSql_ne_handle p.1 hkne
    unfold companyUpdate at hok
    cases hsql : sqlForPartialUpdate data companyJsToSql with
    | error e => rw [hsql] at hok; cases hok
    | ok pr =>
      rw [hsql] at hok
      cases hex : execUpdateCompanies db h (updateAssignments data companyJsToSql) with
      | none => rw [hex] at hok; cases hok
      | some dr =>
        rw [hex] at hok
        unfold execUpdateCompanies at hex
        split at hex
        · cases hupd : updCompanyRows (updateAssignments data companyJsToSql)
              h db.companies with
          | none => rw [hupd] at hex; cases hex
          | some prs =>
            rw [hupd] at hex
            simp only [Option.some.injEq] at hex
            subst hex
            cases hrows : (prs.filter (fun p => p.2)).map Prod.fst with
            | nil => rw [hrows] at hok; simp at hok
            | cons r0 rs =>
              rw [hrows] at hok
              simp only [Except.ok.injEq, Prod.mk.injEq] at hok
              obtain ⟨hdb2, hr⟩ := hok
              have hframe := updCompanyRows_handle_frame
                (updateAssignments data companyJsToSql) h hcols
                db.companies prs hupd
              constructor
              · rw [← hdb2]
                simpa using hframe.1
              · intro j ca cb hj1 hj2
                rw [← hdb2] at hj2
                simp only [List.getElem?_map] at hj2
                cases hpj : prs[j]? with
                | none => rw [hpj] at hj2; cases hj2
                | some pb =>
                  rw [hpj] at hj2
                  simp only [Option.map_some', Option.some.injEq] at hj2
                  rw [← hj2]
                  exact hframe.2 j ca pb hj1 hpj
        · cases hex
  · intro db jid data db2 r hni hnc hok
    have hcols : ∀ a ∈ updateAssignments data jobJsToSql,
        a.1 ≠ "id" ∧ a.1 ≠ "company_handle" := by
      intro a ha
      unfold updateAssignments at ha
      rw [List.mem_map] at ha
      obtain ⟨p, hp, rfl⟩ := ha
      rw [colFor_jobJsToSql]
      exact ⟨fun he => hni (List.mem_map.mpr ⟨p, hp, he⟩),
             fun he => hnc (List.mem_map.mpr ⟨p, hp, he⟩)⟩
    unfold jobUpdate at hok
    cases hsql : sqlForPartialUpdate data jobJsToSql with
    | error e => rw [hsql] at hok; cases hok
    | ok pr =>
      rw [hsql] at hok
      cases hex : execUpdateJobs db jid (updateAssignments data jobJsToSql) with
      | none => rw [hex] at hok; cases hok
      | some dr =>
        rw [hex] at hok
        unfold execUpdateJobs at hex
        split at hex
        · cases hupd : updJobRows (updateAssignments data jobJsToSql)
              jid db.jobs with
          | none => rw [hupd] at hex; cases hex
          | some prs =>
            rw [hupd] at hex
            simp only [Option.some.injEq] at hex
            subst hex
            cases hrows : (prs.filter (fun p => p.2)).map Prod.fst with
            | nil => rw [hrows] at hok; simp at hok
            | cons r0 rs =>
              rw [hrows] at hok
              simp only [Except.ok.injEq, Prod.mk.injEq] at hok
              obtain ⟨hdb2, hr⟩ := hok
              have hframe := updJobRows_frame
                (updateAssignments data jobJsToSql) jid hcols
                db.jobs prs hupd
              constructor
              · rw [← hdb2]
                simpa using hframe.1
              · intro j ja jb hj1 hj2
                rw [← hdb2] at hj2
                simp only [List.getElem?_map] at hj2
                cases hpj : prs[j]? with
                | none => rw [hpj] at hj2; cases hj2
                | some pb =>
                  rw [hpj] at hj2
                  simp only [Option.map_some', Option.some.injEq] at hj2
                  rw [← hj2]
                  exact hframe.2 j ja pb hj1 hpj
        · cases hex

/-- C7 witness: an allowed update (name for the company, salary for
the job) preserves the primary keys row for row. -/
theorem c7_witness :
    ((⟨[⟨"c1", "New", "Desc", some 10, none⟩],
       [⟨1, "T", some 5, none, "c1"⟩], 2⟩ : DB).companies.length =
      (⟨[⟨"c1", "Comp1", "Desc", some 10, none⟩],
        [⟨1, "T", some 5, none, "c1"⟩], 2⟩ : DB).companies.length ∧
     ∀ (j : Nat) (ca cb : CompanyRow),
       (⟨[⟨"c1", "Comp1", "Desc", some 10, none⟩],
         [⟨1, "T", some 5, none, "c1"⟩], 2⟩ : DB).companies[j]? = some ca →
       (⟨[⟨"c1", "New", "Desc", some 10, none⟩],
         [⟨1, "T", some 5, none, "c1"⟩], 2⟩ : DB).companies[j]? = some cb →
       cb.handle = ca.handle) ∧
    ((⟨[⟨"c1", "Comp1", "Desc", some 10, none⟩],
       [⟨1, "T", some 9999, none, "c1"⟩], 2⟩ : DB).jobs.length =
      (⟨[⟨"c1", "Comp1", "Desc", some 10, none⟩],
        [⟨1, "T", some 5, none, "c1"⟩], 2⟩ : DB).jobs.length ∧
     ∀ (j : Nat) (ja jb : JobRow),
       (⟨[⟨"c1", "Comp1", "Desc", some 10, none⟩],
         [⟨1, "T", some 5, none, "c1"⟩], 2⟩ : DB).jobs[j]? = some ja →
       (⟨[⟨"c1", "Comp1", "Desc", some 10, none⟩],
         [⟨1, "T", some 9999, none, "c1"⟩], 2⟩ : DB).jobs[j]? = some jb →
       jb.id = ja.id ∧ jb.companyHandle = ja.companyHandle) :=
  ⟨c7_update_frame.1 ⟨[⟨"c1", "Comp1", "Desc", some 10, none⟩],
      [⟨1, "T", some 5, none, "c1"⟩], 2⟩ "c1" [("name", JVal.s "New")]
      ⟨[⟨"c1", "New", "Desc", some 10, none⟩],
       [⟨1, "T", some 5, none, "c1"⟩], 2⟩
      ⟨"c1", "New", "Desc", some 10, none⟩ (by decide) rfl,
   c7_update_frame.2 ⟨[⟨"c1", "Comp1", "Desc", some 10, none⟩],
      [⟨1, "T", some 5, none, "c1"⟩], 2⟩ 1 [("salary", JVal.n 9999)]
      ⟨[⟨"c1", "Comp1", "Desc", some 10, none⟩],
       [⟨1, "T", some 9999, none, "c1"⟩], 2⟩
      ⟨1, "T", some 9999, none, "c1"⟩ (by decide) (by decide) rfl⟩

/-- C9: an empty data mapping makes `sqlForPartialUpdate` fail with
`BadRequestError("No data")` (the ValidationError of the spec) before any
SQL text is built, for every column mapping; hence `Company.update`
and `Job.update` with empty input fail the same way, and since only an
`.ok` result carries a successor database, the target row is
unchanged. -/
theorem c9_empty_update_rejected :
    (∀ m : List (String × String),
      sqlForPartialUpdate [] m = .error (.badRequest "No data") ∧
      (JErr.badRequest "No data").isValidation = true) ∧
    (∀ (db : DB) (h : String),
      companyUpdate db h [] = .error (.badRequest "No data")) ∧
    (∀ (db : DB) (jid : Int),
      jobUpdate db jid [] = .error (.badRequest "No data")) :=
  ⟨fun _ => ⟨rfl, rfl⟩, fun _ _ => rfl, fun _ _ => rfl⟩

/-- One step of the Job filter loop never looks at the value paired
with a "hasEquity" key: the whole loop result is invariant under
replacing that value. -/
theorem jobFilterLoop_hasEquity_irrel (pre : List (String × JVal)) :
    ∀ (i : Nat) (post : List (String × JVal)) (v w : JVal),
      jobFilterLoop (pre ++ ("hasEquity", v) :: post) i =
        jobFilterLoop (pre ++ ("hasEquity", w) :: post) i := by
  induction pre with
  | nil =>
    intro i post v w
    simp [jobFilterLoop]
  | cons a tl ih =>
    intro i post v w
    obtain ⟨k, u⟩ := a
    simp only [List.cons_append]
    by_cases h1 : k = "title"
    · subst h1
      simp only [jobFilterLoop, if_pos rfl]
      rw [ih (i + 1) post v w]
    · by_cases h2 : k = "minSalary"
      · subst h2
        simp only [jobFilterLoop]
        rw [ih (i + 1) post v w]
      · by_cases h3 : k = "hasEquity"
        · subst h3
          simp only [jobFilterLoop]
          rw [ih (i + 1) post v w]
        · simp only [jobFilterLoop, if_neg h1, if_neg h2]
          have hcond : ¬(k = "hasEquity" ∧ k ≠ "") := fun hc => h3 hc.1
          rw [if_neg hcond, if_neg hcond]

/-- C10: whenever "hasEquity" appears among the filter keys of
`Job.findAll`, the issued query is wholly independent of the value supplied for
it (so hasEquity: false and hasEquity: true give the identical query),
and the predicate generated at its position is `(equity > $<pos>)`
with the constant 0 pushed as the parameter. -/
theorem c10_hasEquity_constant :
    (∀ (pre post : List (String × JVal)) (v w : JVal),
      jobBuildQuery (pre ++ ("hasEquity", v) :: post) =
        jobBuildQuery (pre ++ ("hasEquity", w) :: post)) ∧
    (∀ (qsd : List (String × JVal)) (j : Nat) (p : String × JVal),
      (∀ p2 ∈ qsd, recognizedJ p2.1 = true) → qsd[j]? = some p →
      p.1 = "hasEquity" →
      ∃ (preds : List String) (vals : List JVal),
        jobBuildQuery qsd =
          .ok (jobSelectSql ("WHERE" ++ String.intercalate " AND " preds),
               vals) ∧
        preds[j]? = some ("(equity > $" ++ toString (j + 1) ++ ")") ∧
        vals[j]? = some (JVal.n 0)) := by
  constructor
  · intro pre post v w
    unfold jobBuildQuery
    rw [jobFilterLoop_hasEquity_irrel pre 0 post v w]
    simp
  · intro qsd j p hrec hj hk
    have hlen : qsd.length ≠ 0 := by
      intro h0
      rw [List.length_eq_zero] at h0
      rw [h0] at hj
      cases hj
    have hmain := jobBuildQuery_ok qsd hrec
    rw [if_neg hlen] at hmain
    refine ⟨_, _, hmain, ?_, ?_⟩
    · simp only [List.getElem?_map, List.getElem?_enumFrom, hj,
        Option.map_some', Nat.zero_add]
      rw [hk]
      rfl
    · simp only [List.getElem?_map, hj, Option.map_some']
      rw [hk]
      rfl

/-- C10 witness: "hasEquity" with the values false and true gives the
same query, and in a two-filter query its predicate sits at position 2
with parameter 0. -/
theorem c10_witness :
    ∃ (preds : List String) (vals : List JVal),
      jobBuildQuery [("minSalary", JVal.n 1), ("hasEquity", JVal.b false)] =
        .ok (jobSelectSql ("WHERE" ++ String.intercalate " AND " preds),
             vals) ∧
      preds[1]? = some ("(equity > $" ++ toString (1 + 1) ++ ")") ∧
      vals[1]? = some (JVal.n 0) :=
  c10_hasEquity_constant.2
    [("minSalary", JVal.n 1), ("hasEquity", JVal.b false)] 1
    ("hasEquity", JVal.b false) (by decide) rfl rfl
